import Mathlib

/-!
Verification of the Donkey King trick-taking card game server.

The definitions below are a shallow embedding of the server-side game
logic of the repository:

- the shared data model (shared game types: Card, Player, GameRoom),
- the rules engine (compareCards, getNextPlayerIndex, isValidCardPlay,
  findTrickWinner, shouldPlayerCollectCards, checkGameOver,
  findGameWinner, findGameLoser),
- the game session controller (GameServer: playCard, completeTrick,
  makeSet, passCards, joinRoom, broadcastGameStateUpdate and the
  per-player hand storage).

JavaScript numbers that can go negative are embedded as Int; array
indices kept as Nat; optional fields as Option; the in-place mutations
of the server are embedded as explicit state passing.  The theorems at
the end of the file settle the frozen claims about this code.
-/

namespace DonkeyKing

/-- Card suits, from the shared game types. -/
inductive Suit
  | hearts | diamonds | clubs | spades
deriving DecidableEq, Repr

/-- Card ranks, from the shared game types.  The order of constructors
follows the rankOrder array of the rules engine: 2 lowest, A highest. -/
inductive Rank
  | r2 | r3 | r4 | r5 | r6 | r7 | r8 | r9 | r10 | rJ | rQ | rK | rA
deriving DecidableEq, Repr

/-- Position of a rank in the rankOrder array used by compareCards
(indexOf over the array of the thirteen rank strings). -/
def rankIndex : Rank → Int
  | .r2 => 0 | .r3 => 1 | .r4 => 2 | .r5 => 3 | .r6 => 4 | .r7 => 5
  | .r8 => 6 | .r9 => 7 | .r10 => 8 | .rJ => 9 | .rQ => 10 | .rK => 11
  | .rA => 12

/-- A card as dealt into a private hand (shared Card interface). -/
structure Card where
  suit : Suit
  rank : Rank
  id : String
deriving DecidableEq, Repr

/-- A card inside currentTrick or centerCards: playCard pushes a copy of
the played card extended with a playedBy tag. -/
structure PlayedCard where
  suit : Suit
  rank : Rank
  id : String
  playedBy : String
deriving DecidableEq, Repr

/-- Forget the playedBy tag of a trick card. -/
def PlayedCard.toCard (c : PlayedCard) : Card :=
  { suit := c.suit, rank := c.rank, id := c.id }

/-- Tag a card with the id of the player who played it. -/
def Card.played (c : Card) (playerId : String) : PlayedCard :=
  { suit := c.suit, rank := c.rank, id := c.id, playedBy := playerId }

/-- Public player record (shared Player interface).  The concealed hand
is never stored here: only its size, as cardCount.  Counters are Int
because the JavaScript code can drive them negative (makeSet subtracts
four without checking).  The fields isFinished and finishPosition exist
on the shared type; the server never assigns them, so freshly created
players carry false and none. -/
structure Player where
  id : String
  name : String
  displayName : String
  cardCount : Int
  isReady : Bool
  isHost : Bool
  isCurrentTurn : Bool
  sets : List (List Card)
  isConnected : Bool
  collectedCards : Int
  isFinished : Bool
  finishPosition : Option Int
deriving DecidableEq, Repr

/-- Room lifecycle states. -/
inductive GamePhase
  | waiting | playing | finished
deriving DecidableEq, Repr

/-- Room state (shared GameRoom interface).  The createdAt timestamp is
omitted: no embedded operation reads or writes it. -/
structure GameRoom where
  id : String
  players : List Player
  gameState : GamePhase
  currentPlayerIndex : Nat
  winner : Option String := none
  donkey : Option String := none
  maxPlayers : Nat
  centerCards : List PlayedCard
  currentTrick : List PlayedCard
  trickLeadSuit : Option Suit := none
  trickStartPlayer : Nat
deriving DecidableEq, Repr

/-! ## Rules engine (game-rules: bent-cards variant) -/

/-- compareCards: difference of the rankOrder positions of the two
cards; positive when the first card outranks the second. -/
def compareCards (card1 card2 : Card) : Int :=
  rankIndex card1.rank - rankIndex card2.rank

/-- Reads players[i].isFinished.  The callers only index inside the
list (the index is always reduced modulo the length), so the default
for an out-of-range index is never reached. -/
def isFinishedAt (players : List Player) (i : Nat) : Bool :=
  ((players.get? i).map Player.isFinished).getD false

/-- The while loop of getNextPlayerIndex: advance nextIndex modulo the
player count while the player there is finished and attempts is below
the player count.  Each iteration raises attempts by one, so a fuel of
players.length bounds the loop; the function returns the final
nextIndex and attempts values. -/
def getNextLoopAux (players : List Player) :
    Nat → Nat → Nat → Nat × Nat
  | 0, nextIndex, attempts => (nextIndex, attempts)
  | fuel + 1, nextIndex, attempts =>
    if isFinishedAt players nextIndex ∧ attempts < players.length then
      getNextLoopAux players fuel ((nextIndex + 1) % players.length)
        (attempts + 1)
    else (nextIndex, attempts)

/-- getNextPlayerIndex: clockwise rotation from currentIndex, skipping
finished players; if the scan exhausts every seat, the current index is
returned unchanged. -/
def getNextPlayerIndex (room : GameRoom) (currentIndex : Nat) : Nat :=
  let players := room.players
  let start := (currentIndex + 1) % players.length
  let result := getNextLoopAux players players.length start 0
  if result.2 ≥ players.length then currentIndex else result.1

/-- isValidCardPlay: the first card of a trick is always legal;
afterwards, with a lead suit set, a player holding that suit must
follow it and a player without it may play anything. -/
def isValidCardPlay (card : Card) (currentTrick : List Card)
    (playerCards : List Card) (leadSuit : Option Suit) : Bool :=
  if currentTrick.length = 0 then
    true
  else
    match leadSuit with
    | some s =>
      if playerCards.any (fun c => c.suit == s) then
        card.suit == s
      else
        true
    | none => true

/-- All cards of the list carry the rank of the first card: this is the
uniqueRanks.size == 1 test of the rules engine. -/
def sameRank : List Card → Bool
  | [] => true
  | c :: rest => rest.all (fun d => d.rank == c.rank)

/-- The reduce step of findTrickWinner: keep the higher-ranked card. -/
def higherCard (highest current : Card) : Card :=
  if compareCards current highest > 0 then current else highest

/-- findTrickWinner: none on an empty trick; none on a four-card trick
whose cards all share one rank (bent cards); otherwise the first card
when no lead suit is given or no card follows it, else the
highest-ranked card among the cards of the lead suit. -/
def findTrickWinner (trick : List Card) (leadSuit : Option Suit) :
    Option Card :=
  if trick.length = 0 then none
  else if trick.length = 4 ∧ sameRank trick then none
  else
    match leadSuit with
    | none => trick.head?
    | some s =>
      match trick.filter (fun c => c.suit == s) with
      | [] => trick.head?
      | first :: rest => some (rest.foldl higherCard first)

/-- shouldPlayerCollectCards: nobody collects a bent four-card trick;
every other trick is collected. -/
def shouldPlayerCollectCards (trick : List Card)
    (_leadSuit : Option Suit) : Bool :=
  if trick.length = 4 ∧ sameRank trick then false else true

/-- checkGameOver: the game ends only when at most one player still
holds cards. -/
def checkGameOver (players : List Player) : Bool :=
  (players.filter (fun p => p.cardCount > 0)).length ≤ 1

/-- findGameWinner: the id of the player whose finishPosition is 1. -/
def findGameWinner (players : List Player) : Option String :=
  (players.find? (fun p => p.finishPosition == some 1)).map Player.id

/-- findGameLoser: the id of the single remaining player with cards,
none when that player is not unique. -/
def findGameLoser (players : List Player) : Option String :=
  let playersWithCards := players.filter (fun p => p.cardCount > 0)
  if playersWithCards.length = 1 then
    (playersWithCards.head?).map Player.id
  else none

/-! ## Game session controller (game-server) -/

namespace GameServer

/-- The private compareCards method of the server class, a duplicate of
the rules-engine comparison applied to the tagged trick cards. -/
def compareCards (card1 card2 : PlayedCard) : Int :=
  rankIndex card1.rank - rankIndex card2.rank

/-- The reduce step of completeTrick: keep the higher-ranked trick
card. -/
def higherCard (highest current : PlayedCard) : PlayedCard :=
  if compareCards current highest > 0 then current else highest

/-- Array.prototype.findIndex on the players list, as an Option (the
server only reads the index behind a guard that the matching player
exists, so the -1 case of JavaScript is the none case here). -/
def findIndex (pred : Player → Bool) : List Player → Option Nat
  | [] => none
  | p :: rest =>
    if pred p then some 0 else (findIndex pred rest).map (fun i => i + 1)

/-- The view of one player broadcast by broadcastGameStateUpdate and
broadcastGameStateToRoom: only the fields the mapping in the source
lists (id, name, cardCount, isReady, isHost, isCurrentTurn, sets,
isConnected). -/
structure PublicPlayer where
  id : String
  name : String
  cardCount : Int
  isReady : Bool
  isHost : Bool
  isCurrentTurn : Bool
  sets : List (List Card)
  isConnected : Bool
deriving DecidableEq, Repr

/-- Project a player onto the broadcast fields. -/
def toPublicPlayer (p : Player) : PublicPlayer :=
  { id := p.id, name := p.name, cardCount := p.cardCount,
    isReady := p.isReady, isHost := p.isHost,
    isCurrentTurn := p.isCurrentTurn, sets := p.sets,
    isConnected := p.isConnected }

/-- The room object inside a broadcast view: the spread of the room
with the players list replaced by its public projection. -/
structure PublicRoom where
  id : String
  players : List PublicPlayer
  gameState : GamePhase
  currentPlayerIndex : Nat
  winner : Option String
  donkey : Option String
  maxPlayers : Nat
  centerCards : List PlayedCard
  currentTrick : List PlayedCard
  trickLeadSuit : Option Suit
  trickStartPlayer : Nat
deriving DecidableEq, Repr

/-- Spread a room into its broadcast form. -/
def toPublicRoom (room : GameRoom) : PublicRoom :=
  { id := room.id, players := room.players.map toPublicPlayer,
    gameState := room.gameState,
    currentPlayerIndex := room.currentPlayerIndex,
    winner := room.winner, donkey := room.donkey,
    maxPlayers := room.maxPlayers, centerCards := room.centerCards,
    currentTrick := room.currentTrick,
    trickLeadSuit := room.trickLeadSuit,
    trickStartPlayer := room.trickStartPlayer }

/-- The GameState payload of a GAME_STATE_UPDATE: public room view plus
the private hand of the receiving connection. -/
structure GameStateView where
  room : PublicRoom
  myCards : List Card
  myId : String
  selectedCards : List String
  canPass : Bool
  passDirection : String
deriving DecidableEq, Repr

/-- The GameState payload of ROOM_JOINED and ROOM_CREATED: these send
the room object itself, with full player records (still no hands: hands
live only in the separate card storage). -/
structure FullGameStateView where
  room : GameRoom
  myCards : List Card
  myId : String
  selectedCards : List String
  canPass : Bool
  passDirection : String
deriving DecidableEq, Repr

/-- Server-to-client messages produced by the embedded handlers. -/
inductive SocketResponse
  | ERROR (message : String)
  | GAME_STATE_UPDATE (payload : GameStateView)
  | ROOM_JOINED (payload : FullGameStateView)
  | GAME_FINISHED (winner donkey : String)
  | PLAYER_LEFT (playerId : String)
deriving DecidableEq, Repr

/-- Messages are returned paired with the id of the socket they are
sent to. -/
abbrev Outbox := List (String × SocketResponse)

/-- The per-room slice of playerCardStorage: player id to concealed
hand, empty list when absent (getPlayerCards returns [] for a missing
entry). -/
def Hands : Type := String → List Card

/-- getPlayerCards for one room. -/
def getPlayerCards (hands : Hands) (playerId : String) : List Card :=
  hands playerId

/-- setPlayerCards for one room. -/
def setPlayerCards (hands : Hands) (playerId : String)
    (cards : List Card) : Hands :=
  fun q => if q = playerId then cards else hands q

/-- removeCardFromPlayer: replace the hand by the hand without the
cards of the given id. -/
def removeCardFromPlayer (hands : Hands) (playerId cardId : String) :
    Hands :=
  setPlayerCards hands playerId
    ((getPlayerCards hands playerId).filter (fun card => ¬ card.id = cardId))

/-- In-place mutation through a find reference: apply f to the first
list entry satisfying the predicate, keep the rest. -/
def modifyFirst (pred : Player → Bool) (f : Player → Player) :
    List Player → List Player
  | [] => []
  | p :: rest =>
    if pred p then f p :: rest else p :: modifyFirst pred f rest

/-- The forEach((p, index) => p.isCurrentTurn = index === idx) pattern:
the first argument is the index of the head of the remaining list. -/
def setTurnFlags (n idx : Nat) : List Player → List Player
  | [] => []
  | p :: rest =>
    { p with isCurrentTurn := n == idx } :: setTurnFlags (n + 1) idx rest

/-- Math.max over the collectedCards of the players.  The rooms the
server applies it to always hold at least the requesting player, so
the empty-list default is never reached. -/
def maxCollected (players : List Player) : Int :=
  match players.map Player.collectedCards with
  | [] => 0
  | x :: xs => xs.foldl max x

/-- broadcastGameStateUpdate: one personalized GAME_STATE_UPDATE per
room member whose socket is live, carrying the public room view and
the private hand of that member (canPass mirrors isCurrentTurn). -/
def broadcastGameStateUpdate (live : String → Bool) (room : GameRoom)
    (hands : Hands) : Outbox :=
  (room.players.filter (fun p => live p.id)).map (fun player =>
    (player.id, SocketResponse.GAME_STATE_UPDATE
      { room := toPublicRoom room,
        myCards := getPlayerCards hands player.id,
        myId := player.id, selectedCards := [],
        canPass := player.isCurrentTurn, passDirection := "left" }))

/-- broadcastGameStateToRoom: same personalized views, with canPass
fixed to false (used after joins and disconnects). -/
def broadcastGameStateToRoom (live : String → Bool) (room : GameRoom)
    (hands : Hands) : Outbox :=
  (room.players.filter (fun p => live p.id)).map (fun player =>
    (player.id, SocketResponse.GAME_STATE_UPDATE
      { room := toPublicRoom room,
        myCards := getPlayerCards hands player.id,
        myId := player.id, selectedCards := [],
        canPass := false, passDirection := "left" }))

/-- completeTrick: filter the trick by the lead suit, reduce to the
highest of those cards, credit the trick to the player who played it
and hand that player the lead, then archive the trick to centerCards
and reset currentTrick and trickLeadSuit.  When no trick card matches
the lead suit the source dereferences undefined and throws; that path
is the error case. -/
def completeTrick (room : GameRoom) : Except Unit GameRoom :=
  let leadSuit := room.trickLeadSuit
  let leadSuitCards := room.currentTrick.filter
    (fun card => some card.suit == leadSuit)
  match leadSuitCards with
  | [] => Except.error ()
  | first :: rest =>
    let winningCard := rest.foldl higherCard first
    let winnerPlayerId := winningCard.playedBy
    let room1 :=
      match findIndex (fun p => p.id == winnerPlayerId) room.players with
      | none => room
      | some winnerIndex =>
        let players1 := modifyFirst (fun p => p.id == winnerPlayerId)
          (fun p => { p with collectedCards :=
            p.collectedCards + room.currentTrick.length }) room.players
        { room with
          players := setTurnFlags 0 winnerIndex players1,
          currentPlayerIndex := winnerIndex,
          trickStartPlayer := winnerIndex }
    Except.ok { room1 with
      centerCards := room1.centerCards ++ room1.currentTrick,
      currentTrick := [],
      trickLeadSuit := none }

/-- The win-condition block at the end of playCard: as soon as some
player has cardCount 0, the room is finished, the winner is the first
player with cardCount 0 and the donkey the first player holding the
maximum collectedCards. -/
def playCardFinishCheck (room : GameRoom) : GameRoom :=
  if room.players.any (fun p => p.cardCount == 0) then
    { room with
      gameState := GamePhase.finished,
      winner := (room.players.find? (fun p => p.cardCount == 0)).map
        Player.id,
      donkey := (room.players.find?
        (fun p => p.collectedCards == maxCollected room.players)).map
        Player.id }
  else room

/-- The mutation block of an accepted playCard, on the room object:
set the lead suit when this is the first card of the trick, decrement
the cardCount of the requesting player (the first player of that id,
matching the find reference the source mutates through) and append the
tagged card to the trick. -/
def applyPlay (room : GameRoom) (sockId : String) (cardToPlay : Card) :
    GameRoom :=
  let room1 :=
    if room.currentTrick.length = 0 then
      { room with trickLeadSuit := some cardToPlay.suit }
    else room
  { room1 with
    players := modifyFirst (fun p => p.id == sockId)
      (fun p => { p with cardCount := p.cardCount - 1 }) room1.players,
    currentTrick := room1.currentTrick ++ [cardToPlay.played sockId] }

/-- The turn advance of playCard when the trick is not yet complete:
plain clockwise rotation (no finished-player skipping here) and the
isCurrentTurn flags recomputed for every seat. -/
def advanceTurn (room : GameRoom) : GameRoom :=
  let idx := (room.currentPlayerIndex + 1) % room.players.length
  { room with
    currentPlayerIndex := idx,
    players := setTurnFlags 0 idx room.players }

/-- playCard: reject silently when the room is missing or not playing;
reject with an error when the requester does not hold the turn or the
card id is not in the private hand of the requester; otherwise set the
lead suit on the first card of a trick, move the card from the hand
into the trick, resolve the trick at four cards or advance the turn,
run the win-condition check and broadcast. -/
def playCard (live : String → Bool) (roomIn : Option GameRoom)
    (hands : Hands) (sockId cardId : String) :
    Option GameRoom × Hands × Outbox :=
  match roomIn with
  | none => (none, hands, [])
  | some room =>
    if room.gameState = GamePhase.playing then
      if ((room.players.find? (fun p => p.id == sockId)).map
          Player.isCurrentTurn).getD false then
        match (getPlayerCards hands sockId).find?
            (fun card => card.id == cardId) with
        | none =>
          (some room, hands,
            [(sockId, SocketResponse.ERROR "Card not found in your hand")])
        | some cardToPlay =>
          let hands1 := removeCardFromPlayer hands sockId cardId
          let room2 := applyPlay room sockId cardToPlay
          if room2.currentTrick.length = 4 then
            match completeTrick room2 with
            | Except.error _ =>
              (some room2, hands1,
                [(sockId, SocketResponse.ERROR "An error occurred")])
            | Except.ok room3 =>
              let room4 := playCardFinishCheck room3
              (some room4, hands1, broadcastGameStateUpdate live room4 hands1)
          else
            let room4 := playCardFinishCheck (advanceTurn room2)
            (some room4, hands1, broadcastGameStateUpdate live room4 hands1)
      else
        (some room, hands, [(sockId, SocketResponse.ERROR "Not your turn!")])
    else (some room, hands, [])

/-- passCards: deprecated handler, always rejects with an error to the
requester and touches nothing. -/
def passCards (roomIn : Option GameRoom) (hands : Hands)
    (sockId : String) (_cardIds : List String) :
    Option GameRoom × Hands × Outbox :=
  (roomIn, hands,
    [(sockId,
      SocketResponse.ERROR "Card passing not available in this game mode")])

/-- makeSet: after checking only the arity of the request (exactly four
card ids), subtract four from the cardCount of the requester without
touching any stored cards; when the count reaches zero finish the room
with the requester as winner and, when a single player still holds
cards, that player as donkey, and emit GAME_FINISHED to the room
group; otherwise broadcast the updated state. -/
def makeSet (live : String → Bool) (roomIn : Option GameRoom)
    (hands : Hands) (sockId : String) (cardIds : List String) :
    Option GameRoom × Hands × Outbox :=
  match roomIn with
  | none => (none, hands, [])
  | some room =>
    match room.players.find? (fun p => p.id == sockId) with
    | none => (some room, hands, [])
    | some player =>
      if cardIds.length = 4 then
        let players1 := modifyFirst (fun p => p.id == sockId)
          (fun p => { p with cardCount := p.cardCount - 4 }) room.players
        let room1 := { room with players := players1 }
        if player.cardCount - 4 == 0 then
          let playersWithCards := players1.filter (fun p => p.cardCount > 0)
          let room2 := { room1 with
            gameState := GamePhase.finished,
            winner := some sockId,
            donkey :=
              if playersWithCards.length = 1 then
                (playersWithCards.head?).map Player.id
              else room1.donkey }
          (some room2, hands,
            room2.players.map (fun p =>
              (p.id, SocketResponse.GAME_FINISHED
                ((room2.winner).getD "") ((room2.donkey).getD ""))))
        else
          (some room1, hands, broadcastGameStateUpdate live room1 hands)
      else
        (some room, hands,
          [(sockId, SocketResponse.ERROR "A set must have exactly 4 cards")])

/-- The counter loop of generateUniqueDisplayName: try name (2),
name (3), and so on until the candidate collides with no existing
display name.  At most existing.length candidates can collide, so the
fuel existing.length + 1 always suffices. -/
def uniqueNameAux (existing : List String) (desired : String) :
    Nat → Nat → String
  | 0, counter => desired ++ " (" ++ toString counter ++ ")"
  | fuel + 1, counter =>
    let candidate := desired ++ " (" ++ toString counter ++ ")"
    if existing.contains candidate then
      uniqueNameAux existing desired fuel (counter + 1)
    else candidate

/-- generateUniqueDisplayName: keep the desired name when free,
otherwise append the first free numeric suffix starting at 2. -/
def generateUniqueDisplayName (room : GameRoom) (desiredName : String) :
    String :=
  let existingNames := room.players.map Player.displayName
  if existingNames.contains desiredName then
    uniqueNameAux existingNames desiredName (existingNames.length + 1) 2
  else desiredName

/-- joinRoom: reject with an error to the requester when the room is
missing, full, or no longer waiting; otherwise replace a rejoining
player in place (keeping host status), give new players host status
only when no host exists, append the player with a deduplicated
display name, answer ROOM_JOINED and broadcast the room state. -/
def joinRoom (live : String → Bool) (roomIn : Option GameRoom)
    (hands : Hands) (_roomId playerName sockId : String) :
    Option GameRoom × Outbox :=
  match roomIn with
  | none => (none, [(sockId, SocketResponse.ERROR "Room not found")])
  | some room =>
    if room.players.length ≥ room.maxPlayers then
      (some room, [(sockId, SocketResponse.ERROR "Room is full")])
    else if ¬ room.gameState = GamePhase.waiting then
      (some room,
        [(sockId, SocketResponse.ERROR "Game already in progress")])
    else
      let existingPlayer := room.players.find? (fun p => p.id == sockId)
      let isHost :=
        match existingPlayer with
        | some p => p.isHost
        | none => ¬ room.players.any Player.isHost
      let players1 :=
        match existingPlayer with
        | some _ => room.players.filter (fun p => ¬ p.id = sockId)
        | none => room.players
      let room1 := { room with players := players1 }
      let displayName := generateUniqueDisplayName room1 playerName
      let newPlayer : Player :=
        { id := sockId, name := playerName, displayName := displayName,
          cardCount := 0, isReady := false, isHost := isHost,
          isCurrentTurn := false, sets := [], isConnected := true,
          collectedCards := 0, isFinished := false,
          finishPosition := none }
      let room2 := { room1 with players := players1 ++ [newPlayer] }
      (some room2,
        (sockId, SocketResponse.ROOM_JOINED
          { room := room2, myCards := [], myId := sockId,
            selectedCards := [], canPass := false,
            passDirection := "left" })
          :: broadcastGameStateToRoom live room2 hands)

end GameServer

/-! ## Derived quantity used by the conservation claim -/

/-- The conserved quantity of claim C2: cards still in hands (counted
through cardCount) plus cards in the open trick plus archived cards. -/
def cardSum (room : GameRoom) : Int :=
  (room.players.map Player.cardCount).sum
    + room.currentTrick.length + room.centerCards.length

/-! ## Concrete fixtures used by the claim theorems -/

/-- Connectivity predicate with every socket live. -/
def liveAll : String → Bool := fun _ => true

/-- Player fixture builder. -/
def mkPlayer (id : String) (cardCount collected : Int) (turn : Bool) :
    Player :=
  { id := id, name := id, displayName := id, cardCount := cardCount,
    isReady := false, isHost := false, isCurrentTurn := turn,
    sets := [], isConnected := true, collectedCards := collected,
    isFinished := false, finishPosition := none }

/-- Scenario A: mid-game room where player p2 holds one last card and
the other three players still hold cards; p1 has collected the most
cards so far. -/
def playersA : List Player :=
  [ mkPlayer "p0" 3 0 false, mkPlayer "p1" 2 12 false,
    mkPlayer "p2" 1 0 true, mkPlayer "p3" 5 8 false ]

/-- Scenario A room: playing, empty trick, p2 to move. -/
def roomA : GameRoom :=
  { id := "ROOM01", players := playersA,
    gameState := GamePhase.playing, currentPlayerIndex := 2,
    winner := none, donkey := none, maxPlayers := 4,
    centerCards := [], currentTrick := [], trickLeadSuit := none,
    trickStartPlayer := 2 }

/-- Scenario A hands: p2 holds exactly the nine of hearts. -/
def handsA : GameServer.Hands := fun q =>
  if q = "p2" then [{ suit := Suit.hearts, rank := Rank.r9, id := "h9" }]
  else []

/-- Scenario A play: p2 plays the last card of the p2 hand. -/
def resultA : Option GameRoom × GameServer.Hands × GameServer.Outbox :=
  GameServer.playCard liveAll (some roomA) handsA "p2" "h9"

/-- Players of a properly finished game: three players finished with
positions 1, 2, 3 and one player left holding cards. -/
def playersD : List Player :=
  [ { mkPlayer "d0" 0 4 false with
      isFinished := true, finishPosition := some 1 },
    { mkPlayer "d1" 0 8 false with
      isFinished := true, finishPosition := some 2 },
    { mkPlayer "d2" 0 12 false with
      isFinished := true, finishPosition := some 3 },
    mkPlayer "d3" 5 16 false ]

/-- Scenario B trick cards: three sevens already played (spades led). -/
def cardS7 : PlayedCard :=
  { suit := Suit.spades, rank := Rank.r7, id := "s7", playedBy := "q0" }

/-- Seven of hearts played by q1. -/
def cardH7 : PlayedCard :=
  { suit := Suit.hearts, rank := Rank.r7, id := "h7", playedBy := "q1" }

/-- Seven of diamonds played by q2. -/
def cardD7 : PlayedCard :=
  { suit := Suit.diamonds, rank := Rank.r7, id := "d7", playedBy := "q2" }

/-- Seven of clubs still in the q3 hand. -/
def cardC7 : Card :=
  { suit := Suit.clubs, rank := Rank.r7, id := "c7" }

/-- Scenario B players: q0 led the trick, q3 is about to complete it. -/
def playersB : List Player :=
  [ mkPlayer "q0" 10 0 false, mkPlayer "q1" 10 0 false,
    mkPlayer "q2" 10 0 false, mkPlayer "q3" 2 0 true ]

/-- Scenario B room: a trick of three sevens is open, spades led by
seat 0, q3 to move. -/
def roomB : GameRoom :=
  { id := "ROOM02", players := playersB,
    gameState := GamePhase.playing, currentPlayerIndex := 3,
    winner := none, donkey := none, maxPlayers := 4,
    centerCards := [], currentTrick := [cardS7, cardH7, cardD7],
    trickLeadSuit := some Suit.spades, trickStartPlayer := 0 }

/-- Scenario B hands: q3 holds the seven of clubs and a king. -/
def handsB : GameServer.Hands := fun q =>
  if q = "q3" then
    [cardC7, { suit := Suit.diamonds, rank := Rank.rK, id := "kd" }]
  else []

/-- Scenario B play: q3 completes the trick with the fourth seven. -/
def resultB : Option GameRoom × GameServer.Hands × GameServer.Outbox :=
  GameServer.playCard liveAll (some roomB) handsB "q3" "c7"

/-- The completed scenario B trick, as plain cards: four sevens. -/
def trickB : List Card :=
  [cardS7.toCard, cardH7.toCard, cardD7.toCard, cardC7]

/-- Scenario C: a fresh 4-player deal, 13 cards each, nothing played. -/
def playersC : List Player :=
  [ mkPlayer "c0" 13 0 true, mkPlayer "c1" 13 0 false,
    mkPlayer "c2" 13 0 false, mkPlayer "c3" 13 0 false ]

/-- Scenario C room: playing, 52 cards all in hands. -/
def roomC : GameRoom :=
  { id := "ROOM03", players := playersC,
    gameState := GamePhase.playing, currentPlayerIndex := 0,
    winner := none, donkey := none, maxPlayers := 4,
    centerCards := [], currentTrick := [], trickLeadSuit := none,
    trickStartPlayer := 0 }

/-- Scenario C hands are irrelevant to makeSet: it never reads them. -/
def handsC : GameServer.Hands := fun _ => []

/-- Scenario C action: c0 claims a set of four card ids. -/
def resultC : Option GameRoom × GameServer.Hands × GameServer.Outbox :=
  GameServer.makeSet liveAll (some roomC) handsC "c0"
    ["a1", "a2", "a3", "a4"]

/-- The trick of the spec example for findTrickWinner: three of hearts
led, ace of spades, two of hearts, king of clubs. -/
def card3h : Card := { suit := Suit.hearts, rank := Rank.r3, id := "w1" }

/-- Ace of spades of the spec example. -/
def cardAs : Card := { suit := Suit.spades, rank := Rank.rA, id := "w2" }

/-- Two of hearts of the spec example. -/
def card2h : Card := { suit := Suit.hearts, rank := Rank.r2, id := "w3" }

/-- King of clubs of the spec example. -/
def cardKc : Card := { suit := Suit.clubs, rank := Rank.rK, id := "w4" }

/-- The spec example trick with hearts led. -/
def trickW : List Card := [card3h, cardAs, card2h, cardKc]

/-- Scenario G: the spec example trick sitting complete in a room, each
card tagged with the seat that played it, hearts led by seat 0. -/
def trickG : List PlayedCard :=
  [card3h.played "g0", cardAs.played "g1", card2h.played "g2",
   cardKc.played "g3"]

/-- Scenario G players. -/
def playersG : List Player :=
  [ mkPlayer "g0" 12 0 false, mkPlayer "g1" 12 0 false,
    mkPlayer "g2" 12 0 false, mkPlayer "g3" 12 0 true ]

/-- Scenario G room, as completeTrick receives it: four cards down. -/
def roomG : GameRoom :=
  { id := "ROOM04", players := playersG,
    gameState := GamePhase.playing, currentPlayerIndex := 3,
    winner := none, donkey := none, maxPlayers := 4,
    centerCards := [], currentTrick := trickG,
    trickLeadSuit := some Suit.hearts, trickStartPlayer := 0 }

/-- Scenario E: three finished players and one seat still in play,
for the next-player skip rule. -/
def playersE : List Player :=
  [ { mkPlayer "f0" 0 0 false with isFinished := true },
    { mkPlayer "f1" 0 0 false with isFinished := true },
    { mkPlayer "f2" 0 0 false with isFinished := true },
    mkPlayer "f3" 7 0 true ]

/-- Scenario E room. -/
def roomE : GameRoom :=
  { id := "ROOM05", players := playersE,
    gameState := GamePhase.playing, currentPlayerIndex := 3,
    winner := none, donkey := none, maxPlayers := 4,
    centerCards := [], currentTrick := [], trickLeadSuit := none,
    trickStartPlayer := 3 }

/-- A waiting room (game not started), used for rejection witnesses. -/
def roomW : GameRoom :=
  { id := "ROOM06", players := [mkPlayer "h0" 0 0 false],
    gameState := GamePhase.waiting, currentPlayerIndex := 0,
    winner := none, donkey := none, maxPlayers := 4,
    centerCards := [], currentTrick := [], trickLeadSuit := none,
    trickStartPlayer := 0 }

/-- A two-seat room already playing, used for the join-after-start
rejection witness. -/
def roomP2 : GameRoom :=
  { id := "ROOM07", players := [mkPlayer "k0" 5 0 true, mkPlayer "k1" 5 0 false],
    gameState := GamePhase.playing, currentPlayerIndex := 0,
    winner := none, donkey := none, maxPlayers := 4,
    centerCards := [], currentTrick := [], trickLeadSuit := none,
    trickStartPlayer := 0 }

/-- A secret card that only the p1 hand of scenario A9 holds. -/
def secretCard : Card := { suit := Suit.clubs, rank := Rank.rA, id := "sec" }

/-- Scenario A9 hands, first variant: p2 holds one card, p1 holds the
secret card. -/
def hands9a : GameServer.Hands := fun q =>
  if q = "p2" then [{ suit := Suit.hearts, rank := Rank.r9, id := "h9" }]
  else if q = "p1" then [secretCard]
  else []

/-- Scenario A9 hands, second variant: identical for p2, but the p1
hand differs (the secret card is replaced). -/
def hands9b : GameServer.Hands := fun q =>
  if q = "p2" then [{ suit := Suit.hearts, rank := Rank.r9, id := "h9" }]
  else if q = "p1" then [{ suit := Suit.spades, rank := Rank.r4, id := "s4" }]
  else []

/-- Scenario F players: r1 to move in a trick with hearts led. -/
def playersF : List Player :=
  [ mkPlayer "r0" 12 0 false, mkPlayer "r1" 13 0 true,
    mkPlayer "r2" 13 0 false, mkPlayer "r3" 13 0 false ]

/-- Scenario F room: ace of hearts led by seat 0. -/
def roomF : GameRoom :=
  { id := "ROOM08", players := playersF,
    gameState := GamePhase.playing, currentPlayerIndex := 1,
    winner := none, donkey := none, maxPlayers := 4,
    centerCards := [],
    currentTrick :=
      [({ suit := Suit.hearts, rank := Rank.rA, id := "ah" } : Card).played "r0"],
    trickLeadSuit := some Suit.hearts, trickStartPlayer := 0 }

/-- Queen of hearts: the card r1 would have to play to follow suit. -/
def cardQh : Card := { suit := Suit.hearts, rank := Rank.rQ, id := "qh" }

/-- Five of spades: the off-suit card r1 plays instead. -/
def card5s : Card := { suit := Suit.spades, rank := Rank.r5, id := "s5" }

/-- Scenario F hands: r1 holds a heart and a spade. -/
def handsF : GameServer.Hands := fun q =>
  if q = "r1" then [cardQh, card5s] else []

/-! ## Helper lemmas -/

theorem higherCard_eq_or (a b : Card) :
    higherCard a b = a ∨ higherCard a b = b := by
  unfold higherCard
  split
  · exact Or.inr rfl
  · exact Or.inl rfl

theorem rank_le_higherCard_left (a b : Card) :
    rankIndex a.rank ≤ rankIndex (higherCard a b).rank := by
  by_cases h : compareCards b a > 0
  · simp only [higherCard, if_pos h]
    unfold compareCards at h
    omega
  · simp only [higherCard, if_neg h]
    exact le_refl _

theorem rank_le_higherCard_right (a b : Card) :
    rankIndex b.rank ≤ rankIndex (higherCard a b).rank := by
  by_cases h : compareCards b a > 0
  · simp only [higherCard, if_pos h]
    exact le_refl _
  · simp only [higherCard, if_neg h]
    unfold compareCards at h
    omega

theorem foldl_higherCard_mem :
    ∀ (rest : List Card) (first : Card),
      rest.foldl higherCard first ∈ first :: rest := by
  intro rest
  induction rest with
  | nil => intro first; simp
  | cons c cs ih =>
    intro first
    have h := ih (higherCard first c)
    simp only [List.foldl_cons]
    rcases List.mem_cons.mp h with h1 | h2
    · rcases higherCard_eq_or first c with h3 | h3
      · rw [h1, h3]
        exact List.mem_cons_self _ _
      · rw [h1, h3]
        exact List.mem_cons_of_mem _ (List.mem_cons_self _ _)
    · exact List.mem_cons_of_mem _ (List.mem_cons_of_mem _ h2)

theorem foldl_higherCard_ge :
    ∀ (rest : List Card) (first : Card), ∀ x ∈ first :: rest,
      rankIndex x.rank ≤ rankIndex (rest.foldl higherCard first).rank := by
  intro rest
  induction rest with
  | nil =>
    intro first x hx
    have : x = first := by simpa using hx
    simp [this]
  | cons c cs ih =>
    intro first x hx
    simp only [List.foldl_cons]
    rcases List.mem_cons.mp hx with h1 | h1
    · rw [h1]
      exact le_trans (rank_le_higherCard_left first c)
        (ih (higherCard first c) _ (List.mem_cons_self _ _))
    · rcases List.mem_cons.mp h1 with h2 | h2
      · rw [h2]
        exact le_trans (rank_le_higherCard_right first c)
          (ih (higherCard first c) _ (List.mem_cons_self _ _))
      · exact ih (higherCard first c) x (List.mem_cons_of_mem _ h2)

theorem getNextLoopAux_all_finished (ps : List Player) :
    ∀ (fuel next attempts : Nat),
      next < ps.length →
      fuel + attempts ≤ ps.length →
      (∀ k < fuel, isFinishedAt ps ((next + k) % ps.length) = true) →
      getNextLoopAux ps fuel next attempts
        = ((next + fuel) % ps.length, attempts + fuel) := by
  intro fuel
  induction fuel with
  | zero =>
    intro next attempts hn _ _
    simp [getNextLoopAux, Nat.mod_eq_of_lt hn]
  | succ fuel ih =>
    intro next attempts hn hfa hall
    have hlen : 0 < ps.length := lt_of_le_of_lt (Nat.zero_le _) hn
    have hfin : isFinishedAt ps next = true := by
      have h0 := hall 0 (Nat.succ_pos _)
      simpa [Nat.mod_eq_of_lt hn] using h0
    have hatt : attempts < ps.length := by omega
    simp only [getNextLoopAux]
    rw [if_pos ⟨hfin, hatt⟩]
    have h1 : (next + 1) % ps.length < ps.length := Nat.mod_lt _ hlen
    have hall2 : ∀ k < fuel,
        isFinishedAt ps (((next + 1) % ps.length + k) % ps.length) = true := by
      intro k hk
      have h2 := hall (k + 1) (by omega)
      rw [Nat.mod_add_mod]
      have harg : next + 1 + k = next + (k + 1) := by omega
      rw [harg]
      exact h2
    rw [ih ((next + 1) % ps.length) (attempts + 1) h1 (by omega) hall2]
    rw [Nat.mod_add_mod]
    have h3 : next + 1 + fuel = next + (fuel + 1) := by omega
    have h4 : attempts + 1 + fuel = attempts + (fuel + 1) := by omega
    rw [h3, h4]

theorem getNextLoopAux_first_unfinished (ps : List Player) :
    ∀ (fuel next attempts k : Nat),
      next < ps.length →
      fuel + attempts ≤ ps.length →
      k < fuel →
      (∀ j < k, isFinishedAt ps ((next + j) % ps.length) = true) →
      isFinishedAt ps ((next + k) % ps.length) = false →
      getNextLoopAux ps fuel next attempts
        = ((next + k) % ps.length, attempts + k) := by
  intro fuel
  induction fuel with
  | zero =>
    intro next attempts k _ _ hk
    omega
  | succ fuel ih =>
    intro next attempts k hn hfa hk hbefore hkfalse
    have hlen : 0 < ps.length := lt_of_le_of_lt (Nat.zero_le _) hn
    cases k with
    | zero =>
      have hfin : isFinishedAt ps next = false := by
        simpa [Nat.mod_eq_of_lt hn] using hkfalse
      simp only [getNextLoopAux]
      rw [if_neg]
      · simp [Nat.mod_eq_of_lt hn]
      · intro hcond
        rw [hfin] at hcond
        exact absurd hcond.1 (by simp)
    | succ k =>
      have hfin : isFinishedAt ps next = true := by
        have h0 := hbefore 0 (Nat.succ_pos _)
        simpa [Nat.mod_eq_of_lt hn] using h0
      have hatt : attempts < ps.length := by omega
      simp only [getNextLoopAux]
      rw [if_pos ⟨hfin, hatt⟩]
      have h1 : (next + 1) % ps.length < ps.length := Nat.mod_lt _ hlen
      have hb : ∀ j < k,
          isFinishedAt ps (((next + 1) % ps.length + j) % ps.length) = true := by
        intro j hj
        have h2 := hbefore (j + 1) (by omega)
        rw [Nat.mod_add_mod]
        have harg : next + 1 + j = next + (j + 1) := by omega
        rw [harg]
        exact h2
      have hf : isFinishedAt ps
          (((next + 1) % ps.length + k) % ps.length) = false := by
        rw [Nat.mod_add_mod]
        have harg : next + 1 + k = next + (k + 1) := by omega
        rw [harg]
        exact hkfalse
      rw [ih ((next + 1) % ps.length) (attempts + 1) k h1 (by omega)
        (by omega) hb hf]
      rw [Nat.mod_add_mod]
      have h3 : next + 1 + k = next + (k + 1) := by omega
      have h4 : attempts + 1 + k = attempts + (k + 1) := by omega
      rw [h3, h4]

theorem sum_cardCount_modifyFirst_add (pred : Player → Bool) (d : Int)
    (f : Player → Player) (hf : ∀ p, (f p).cardCount = p.cardCount + d) :
    ∀ ps : List Player, (ps.find? pred).isSome →
      ((GameServer.modifyFirst pred f ps).map Player.cardCount).sum
        = (ps.map Player.cardCount).sum + d := by
  intro ps
  induction ps with
  | nil => intro h; simp at h
  | cons p rest ih =>
    intro hsome
    cases hp : pred p with
    | true =>
      simp [GameServer.modifyFirst, hp, hf p]
      omega
    | false =>
      have h2 : (rest.find? pred).isSome := by
        cases hr : rest.find? pred with
        | some x => simp
        | none =>
          rw [List.find?_cons_of_neg _ (by simp [hp]), hr] at hsome
          simp at hsome
      simp [GameServer.modifyFirst, hp, ih h2]
      omega

theorem sum_cardCount_modifyFirst_eq (pred : Player → Bool)
    (f : Player → Player) (hf : ∀ p, (f p).cardCount = p.cardCount) :
    ∀ ps : List Player,
      ((GameServer.modifyFirst pred f ps).map Player.cardCount).sum
        = (ps.map Player.cardCount).sum := by
  intro ps
  induction ps with
  | nil => rfl
  | cons p rest ih =>
    cases hp : pred p with
    | true => simp [GameServer.modifyFirst, hp, hf p]
    | false => simp [GameServer.modifyFirst, hp, ih]

theorem sum_cardCount_setTurnFlags (idx : Nat) :
    ∀ (ps : List Player) (n : Nat),
      ((GameServer.setTurnFlags n idx ps).map Player.cardCount).sum
        = (ps.map Player.cardCount).sum := by
  intro ps
  induction ps with
  | nil => intro n; rfl
  | cons p rest ih =>
    intro n
    simp [GameServer.setTurnFlags, ih]

theorem cardSum_playCardFinishCheck (room : GameRoom) :
    cardSum (GameServer.playCardFinishCheck room) = cardSum room := by
  unfold GameServer.playCardFinishCheck
  split <;> rfl

theorem playCardFinishCheck_players (room : GameRoom) :
    (GameServer.playCardFinishCheck room).players = room.players
    ∧ (GameServer.playCardFinishCheck room).currentTrick
      = room.currentTrick := by
  unfold GameServer.playCardFinishCheck
  split <;> exact ⟨rfl, rfl⟩

theorem cardSum_completeTrick (room room' : GameRoom)
    (h : GameServer.completeTrick room = Except.ok room') :
    cardSum room' = cardSum room := by
  simp only [GameServer.completeTrick] at h
  cases hfil : room.currentTrick.filter
      (fun card => some card.suit == room.trickLeadSuit) with
  | nil =>
    rw [hfil] at h
    simp at h
  | cons first rest =>
    rw [hfil] at h
    simp only [Except.ok.injEq] at h
    subst h
    cases hidx : GameServer.findIndex
        (fun p => p.id == (rest.foldl GameServer.higherCard first).playedBy)
        room.players with
    | none =>
      simp only [hidx]
      simp [cardSum, List.length_append]
      omega
    | some w =>
      simp only [hidx]
      have hm := sum_cardCount_modifyFirst_eq
        (fun p => p.id == (rest.foldl GameServer.higherCard first).playedBy)
        (fun p => { p with collectedCards :=
          p.collectedCards + room.currentTrick.length })
        (fun p => rfl) room.players
      simp [cardSum, List.length_append, sum_cardCount_setTurnFlags, hm]
      omega

theorem cardSum_applyPlay (room : GameRoom) (sockId : String)
    (c : Card)
    (h : (room.players.find? (fun p => p.id == sockId)).isSome) :
    cardSum (GameServer.applyPlay room sockId c) = cardSum room := by
  unfold GameServer.applyPlay
  have hsum := sum_cardCount_modifyFirst_add
    (fun p => p.id == sockId) (-1)
    (fun p => { p with cardCount := p.cardCount - 1 })
    (fun p => by simp; ring) room.players h
  by_cases h0 : room.currentTrick.length = 0
  · simp only [h0, if_pos rfl]
    simp [cardSum, List.length_append, hsum]
    omega
  · rw [if_neg h0]
    simp [cardSum, List.length_append, hsum]
    omega

theorem cardSum_advanceTurn (room : GameRoom) :
    cardSum (GameServer.advanceTurn room) = cardSum room := by
  unfold GameServer.advanceTurn
  simp [cardSum, sum_cardCount_setTurnFlags]

theorem cardSum_playCard (live : String → Bool) (room : GameRoom)
    (hands : GameServer.Hands) (sockId cardId : String) :
    ∃ room', (GameServer.playCard live (some room) hands sockId cardId).1
        = some room'
      ∧ cardSum room' = cardSum room := by
  simp only [GameServer.playCard]
  by_cases hg : room.gameState = GamePhase.playing
  · rw [if_pos hg]
    cases hturn : ((room.players.find? (fun p => p.id == sockId)).map
        Player.isCurrentTurn).getD false with
    | false =>
      rw [if_neg (by simp)]
      exact ⟨room, rfl, rfl⟩
    | true =>
      rw [if_pos rfl]
      cases hcard : (GameServer.getPlayerCards hands sockId).find?
          (fun card => card.id == cardId) with
      | none =>
        exact ⟨room, rfl, rfl⟩
      | some cardToPlay =>
        dsimp only
        have hfind : (room.players.find?
            (fun p => p.id == sockId)).isSome := by
          cases hf2 : room.players.find? (fun p => p.id == sockId) with
          | none => rw [hf2] at hturn; simp at hturn
          | some _ => simp
        by_cases hlen : (GameServer.applyPlay room sockId
            cardToPlay).currentTrick.length = 4
        · rw [if_pos hlen]
          cases hct : GameServer.completeTrick
              (GameServer.applyPlay room sockId cardToPlay) with
          | error e =>
            exact ⟨_, rfl, cardSum_applyPlay room sockId cardToPlay hfind⟩
          | ok room3 =>
            refine ⟨_, rfl, ?_⟩
            rw [cardSum_playCardFinishCheck, cardSum_completeTrick _ _ hct,
              cardSum_applyPlay room sockId cardToPlay hfind]
        · rw [if_neg hlen]
          refine ⟨_, rfl, ?_⟩
          rw [cardSum_playCardFinishCheck, cardSum_advanceTurn,
            cardSum_applyPlay room sockId cardToPlay hfind]
  · rw [if_neg hg]
    exact ⟨room, rfl, rfl⟩

theorem cardSum_makeSet (live : String → Bool) (room : GameRoom)
    (hands : GameServer.Hands) (sockId : String) (cardIds : List String)
    (hfind : (room.players.find? (fun p => p.id == sockId)).isSome)
    (hlen : cardIds.length = 4) :
    ∃ room', (GameServer.makeSet live (some room) hands sockId cardIds).1
        = some room'
      ∧ cardSum room' = cardSum room - 4 := by
  simp only [GameServer.makeSet]
  cases hf : room.players.find? (fun p => p.id == sockId) with
  | none =>
    rw [hf] at hfind
    simp at hfind
  | some player =>
    dsimp only
    rw [if_pos hlen]
    have hsum := sum_cardCount_modifyFirst_add (fun p => p.id == sockId)
      (-4) (fun p => { p with cardCount := p.cardCount - 4 })
      (fun p => by simp; ring) room.players (by rw [hf]; simp)
    cases hz : (player.cardCount - 4 == 0) with
    | true =>
      rw [if_pos rfl]
      refine ⟨_, rfl, ?_⟩
      simp [cardSum, hsum]
      omega
    | false =>
      rw [if_neg (by simp)]
      refine ⟨_, rfl, ?_⟩
      simp [cardSum, hsum]
      omega

theorem mod_shift_ne (c j N : Nat) (hc : c < N) (hj : 1 + j < N) :
    (c + 1 + j) % N ≠ c := by
  intro h
  rcases Nat.lt_or_ge (c + 1 + j) N with hlt | hge
  · rw [Nat.mod_eq_of_lt hlt] at h
    omega
  · have h2 : c + 1 + j - N < N := by omega
    rw [Nat.mod_eq_sub_mod hge, Nat.mod_eq_of_lt h2] at h
    omega

/-! ## Claim theorems -/

/-- C4: for every four-card trick and every lead suit, findTrickWinner
returns none exactly on the bent tricks (all four cards of one rank);
on a non-bent trick with no card of the lead suit it falls back to the
first card played, and otherwise it returns the fold of the cards of
the lead suit, which lies among them and carries the maximal rank. -/
theorem claim4_findTrickWinner_correct (trick : List Card) (s : Suit)
    (h4 : trick.length = 4) :
    (findTrickWinner trick (some s) = none ↔ sameRank trick = true)
    ∧ (sameRank trick = false →
        trick.filter (fun c => c.suit == s) = [] →
        findTrickWinner trick (some s) = trick.head?)
    ∧ (sameRank trick = false → ∀ (first : Card) (rest : List Card),
        trick.filter (fun c => c.suit == s) = first :: rest →
        findTrickWinner trick (some s) = some (rest.foldl higherCard first)
          ∧ rest.foldl higherCard first ∈ trick.filter (fun c => c.suit == s)
          ∧ ∀ x ∈ trick.filter (fun c => c.suit == s),
              rankIndex x.rank ≤
                rankIndex (rest.foldl higherCard first).rank) := by
  have hne : ¬ trick.length = 0 := by omega
  by_cases hr : sameRank trick = true
  · have hnone : findTrickWinner trick (some s) = none := by
      simp [findTrickWinner, hne, h4, hr]
    refine ⟨by simp [hnone, hr], ?_, ?_⟩
    · intro h
      rw [h] at hr
      simp at hr
    · intro h
      rw [h] at hr
      simp at hr
  · have hr' : sameRank trick = false := by
      simpa using hr
    have hcases :
        ∀ (first : Card) (rest : List Card),
          trick.filter (fun c => c.suit == s) = first :: rest →
          findTrickWinner trick (some s) = some (rest.foldl higherCard first) := by
      intro first rest hfil
      simp [findTrickWinner, hne, h4, hr', hfil]
    refine ⟨⟨?_, ?_⟩, ?_, ?_⟩
    · intro hnone
      exfalso
      cases hfil : trick.filter (fun c => c.suit == s) with
      | nil =>
        cases trick with
        | nil => simp at h4
        | cons a t =>
          simp [findTrickWinner, hne, h4, hr', hfil] at hnone
      | cons f r =>
        rw [hcases f r hfil] at hnone
        simp at hnone
    · intro h
      rw [h] at hr'
      simp at hr'
    · intro _ hfil
      simp [findTrickWinner, hne, h4, hr', hfil]
    · intro _ first rest hfil
      refine ⟨hcases first rest hfil, ?_, ?_⟩
      · rw [hfil]
        exact foldl_higherCard_mem rest first
      · intro x hx
        rw [hfil] at hx
        exact foldl_higherCard_ge rest first x hx

/-- C4 witness: the spec example trick (three of hearts led, ace of
spades, two of hearts, king of clubs) with hearts as lead suit has the
three of hearts as winner. -/
theorem claim4_findTrickWinner_correct_witness :
    findTrickWinner trickW (some Suit.hearts) = some card3h
    ∧ card3h ∈ trickW.filter (fun c => c.suit == Suit.hearts) := by
  obtain ⟨h1, h2, h3⟩ :=
    (claim4_findTrickWinner_correct trickW Suit.hearts (by decide)).2.2
      (by decide) card3h [card2h] (by decide)
  have he : [card2h].foldl higherCard card3h = card3h := by decide
  rw [he] at h1 h2
  exact ⟨h1, h2⟩

/-- C1: the rules-engine game-over test (checkGameOver) is indeed true
iff at most one player holds cards, matching the spec examples; but the
controller contradicts it: after the successful PLAY_CARD of scenario
A, three players still hold cards (checkGameOver is false on the
resulting players), yet playCard has set gameState to finished merely
because one cardCount reached 0.  This refutes the part of the claim
that says the controller finishes iff at most one player holds cards. -/
theorem claim1_playCard_finishes_while_three_players_hold_cards :
    checkGameOver
      [mkPlayer "e0" 0 0 false, mkPlayer "e1" 0 0 false,
       mkPlayer "e2" 0 0 false, mkPlayer "e3" 5 0 false] = true
    ∧ checkGameOver
      [mkPlayer "e0" 3 0 false, mkPlayer "e1" 2 0 false,
       mkPlayer "e2" 0 0 false, mkPlayer "e3" 5 0 false] = false
    ∧ resultA.1.map GameRoom.gameState = some GamePhase.finished
    ∧ resultA.1.map
        (fun r => (r.players.filter (fun p => p.cardCount > 0)).length)
      = some 3
    ∧ resultA.1.map (fun r => checkGameOver r.players) = some false := by
  refine ⟨by decide, by decide, ?_, ?_, ?_⟩ <;> decide

/-- C3: in the finished state the controller produces, winner is the
first player whose cardCount reached 0 and donkey is the player with
the most collected cards, not the player with finishPosition 1 and not
the unique holder of cards: in scenario A the room finishes with three
players still holding cards, no player ever receives a finishPosition,
findGameWinner and findGameLoser of the rules engine return none on
the resulting players, yet the controller reports winner p2 and donkey
p1 (p1 merely collected the most cards).  On a properly finished
configuration (playersD) the rules-engine functions do behave as the
claim states. -/
theorem claim3_winner_donkey_divergence :
    resultA.1.map GameRoom.winner = some (some "p2")
    ∧ resultA.1.map GameRoom.donkey = some (some "p1")
    ∧ resultA.1.map (fun r => findGameWinner r.players) = some none
    ∧ resultA.1.map (fun r => findGameLoser r.players) = some none
    ∧ resultA.1.map (fun r => r.players.map Player.finishPosition)
      = some [none, none, none, none]
    ∧ findGameWinner playersD = some "d0"
    ∧ findGameLoser playersD = some "d3"
    ∧ checkGameOver playersD = true := by
  refine ⟨?_, ?_, ?_, ?_, ?_, ?_, ?_, ?_⟩ <;> decide

/-- C5: on a bent trick (four sevens) the rules engine says the trick
is void (findTrickWinner none, shouldPlayerCollectCards false), but the
controller never consults it: completing the scenario B trick credits
the four cards to the trick leader q0 (collectedCards rises from 0 to
4), refuting the part of the claim that says every collectedCards stays
unchanged.  The remaining parts do hold there: all four cards are
archived to centerCards, the trick and lead suit are cleared, and the
leader of the bent trick (seat 0) leads the next trick. -/
theorem claim5_bent_trick_collected_anyway :
    shouldPlayerCollectCards trickB (some Suit.spades) = false
    ∧ findTrickWinner trickB (some Suit.spades) = none
    ∧ resultB.1.map (fun r => r.players.map Player.collectedCards)
      = some [4, 0, 0, 0]
    ∧ resultB.1.map (fun r => r.centerCards.length) = some 4
    ∧ resultB.1.map GameRoom.currentPlayerIndex = some 0
    ∧ resultB.1.map GameRoom.trickStartPlayer = some 0
    ∧ resultB.1.map GameRoom.currentTrick = some []
    ∧ resultB.1.map GameRoom.trickLeadSuit = some none
    ∧ resultB.1.map GameRoom.gameState = some GamePhase.playing := by
  refine ⟨?_, ?_, ?_, ?_, ?_, ?_, ?_, ?_, ?_⟩ <;> decide

/-- C2 counterexample: MAKE_SET does not preserve the card-conservation
sum.  In scenario C the room is playing with the full 52 cards in
hands; after an accepted MAKE_SET the sum drops to 48 while the room is
still playing, so the claimed equality fails after an accepted event. -/
theorem claim2_makeSet_breaks_card_conservation :
    cardSum roomC = 52
    ∧ resultC.1.map cardSum = some 48
    ∧ resultC.1.map GameRoom.gameState = some GamePhase.playing := by
  refine ⟨?_, ?_, ?_⟩ <;> decide

/-- C2 amended: during play the conserved sum (cardCounts plus open
trick plus archived cards) is preserved by every PLAY_CARD, including
trick resolution and the rejection paths, and by PASS_CARDS (which
never changes state) and by a MAKE_SET of the wrong arity; but an
accepted MAKE_SET of four card ids does not preserve it: it lowers the
sum by exactly 4, because it only decrements the cardCount of the
requester without moving any cards. -/
theorem claim2_amended_conservation (live : String → Bool)
    (room : GameRoom) (hands : GameServer.Hands)
    (sockId cardId : String) (cardIds : List String) :
    (∃ room',
       (GameServer.playCard live (some room) hands sockId cardId).1
         = some room'
       ∧ cardSum room' = cardSum room)
    ∧ (GameServer.passCards (some room) hands sockId cardIds).1 = some room
    ∧ (cardIds.length ≠ 4 →
        (GameServer.makeSet live (some room) hands sockId cardIds).1
          = some room)
    ∧ ((room.players.find? (fun p => p.id == sockId)).isSome →
        cardIds.length = 4 →
        ∃ room',
          (GameServer.makeSet live (some room) hands sockId cardIds).1
            = some room'
          ∧ cardSum room' = cardSum room - 4) := by
  refine ⟨cardSum_playCard live room hands sockId cardId, rfl, ?_, ?_⟩
  · intro hne
    simp only [GameServer.makeSet]
    cases hf : room.players.find? (fun p => p.id == sockId) with
    | none => rfl
    | some player =>
      dsimp only
      rw [if_neg hne]
  · intro hfind hlen
    exact cardSum_makeSet live room hands sockId cardIds hfind hlen

/-- C2 amended witness: in scenario A a PLAY_CARD keeps the sum, and
in scenario C an accepted MAKE_SET lowers the 52-card sum by 4. -/
theorem claim2_amended_conservation_witness :
    (∃ room',
       (GameServer.playCard liveAll (some roomA) handsA "p2" "h9").1
         = some room'
       ∧ cardSum room' = cardSum roomA)
    ∧ (∃ room',
       (GameServer.makeSet liveAll (some roomC) handsC "c0"
           ["a1", "a2", "a3", "a4"]).1 = some room'
       ∧ cardSum room' = cardSum roomC - 4) := by
  have h1 := claim2_amended_conservation liveAll roomA handsA "p2" "h9" []
  have h2 := claim2_amended_conservation liveAll roomC handsC "c0" "h9"
    ["a1", "a2", "a3", "a4"]
  exact ⟨h1.1, h2.2.2.2 (by decide) (by decide)⟩

theorem map_pair_setTurnFlags (idx : Nat) :
    ∀ (ps : List Player) (n : Nat),
      (GameServer.setTurnFlags n idx ps).map (fun p => (p.id, p.cardCount))
        = ps.map (fun p => (p.id, p.cardCount)) := by
  intro ps
  induction ps with
  | nil => intro n; rfl
  | cons p rest ih =>
    intro n
    simp [GameServer.setTurnFlags, ih]

theorem map_pair_modifyFirst (pred : Player → Bool) (f : Player → Player)
    (hf : ∀ p, (f p).id = p.id ∧ (f p).cardCount = p.cardCount) :
    ∀ ps : List Player,
      (GameServer.modifyFirst pred f ps).map (fun p => (p.id, p.cardCount))
        = ps.map (fun p => (p.id, p.cardCount)) := by
  intro ps
  induction ps with
  | nil => rfl
  | cons p rest ih =>
    cases hp : pred p <;>
      simp [GameServer.modifyFirst, hp, ih, (hf p).1, (hf p).2]

theorem map_pair_completeTrick (room room' : GameRoom)
    (h : GameServer.completeTrick room = Except.ok room') :
    room'.players.map (fun p => (p.id, p.cardCount))
      = room.players.map (fun p => (p.id, p.cardCount)) := by
  simp only [GameServer.completeTrick] at h
  cases hfil : room.currentTrick.filter
      (fun card => some card.suit == room.trickLeadSuit) with
  | nil =>
    rw [hfil] at h
    simp at h
  | cons first rest =>
    rw [hfil] at h
    simp only [Except.ok.injEq] at h
    subst h
    cases hidx : GameServer.findIndex
        (fun p => p.id == (rest.foldl GameServer.higherCard first).playedBy)
        room.players with
    | none => simp only [hidx]
    | some w =>
      simp only [hidx]
      rw [map_pair_setTurnFlags, map_pair_modifyFirst
        (fun p => p.id == (rest.foldl GameServer.higherCard first).playedBy)
        (fun p => { p with collectedCards :=
          p.collectedCards + room.currentTrick.length })
        (fun p => ⟨rfl, rfl⟩)]

theorem applyPlay_players (room : GameRoom) (sockId : String) (c : Card) :
    (GameServer.applyPlay room sockId c).players
      = GameServer.modifyFirst (fun p => p.id == sockId)
          (fun p => { p with cardCount := p.cardCount - 1 })
          room.players := by
  unfold GameServer.applyPlay
  by_cases h0 : room.currentTrick.length = 0 <;> simp [h0]

theorem applyPlay_trick (room : GameRoom) (sockId : String) (c : Card) :
    (GameServer.applyPlay room sockId c).currentTrick
      = room.currentTrick ++ [c.played sockId] := by
  unfold GameServer.applyPlay
  by_cases h0 : room.currentTrick.length = 0 <;> simp [h0]

theorem advanceTurn_trick (room : GameRoom) :
    (GameServer.advanceTurn room).currentTrick = room.currentTrick := rfl

theorem advanceTurn_map_pair (room : GameRoom) :
    (GameServer.advanceTurn room).players.map (fun p => (p.id, p.cardCount))
      = room.players.map (fun p => (p.id, p.cardCount)) := by
  unfold GameServer.advanceTurn
  exact map_pair_setTurnFlags _ _ _

theorem removeCard_at_self (hands : GameServer.Hands)
    (sockId cardId : String) :
    GameServer.removeCardFromPlayer hands sockId cardId sockId
      = (hands sockId).filter (fun c => ¬ c.id = cardId) := by
  simp [GameServer.removeCardFromPlayer, GameServer.setPlayerCards,
    GameServer.getPlayerCards]

theorem setTurnFlags_get? (idx : Nat) :
    ∀ (ps : List Player) (n i : Nat),
      (GameServer.setTurnFlags n idx ps).get? i
        = (ps.get? i).map
            (fun p => { p with isCurrentTurn := (n + i) == idx }) := by
  intro ps
  induction ps with
  | nil => intro n i; simp [GameServer.setTurnFlags]
  | cons p rest ih =>
    intro n i
    cases i with
    | zero => simp [GameServer.setTurnFlags]
    | succ i =>
      have harg : n + 1 + i = n + (i + 1) := by omega
      simp only [GameServer.setTurnFlags, List.get?_cons_succ, ih (n + 1) i,
        harg]

theorem modifyFirst_get? (pred : Player → Bool) (f : Player → Player) :
    ∀ (ps : List Player) (w : Nat),
      GameServer.findIndex pred ps = some w →
      ∀ i, (GameServer.modifyFirst pred f ps).get? i
        = if i = w then (ps.get? i).map f else ps.get? i := by
  intro ps
  induction ps with
  | nil =>
    intro w hw
    simp [GameServer.findIndex] at hw
  | cons p rest ih =>
    intro w hw i
    cases hp : pred p with
    | true =>
      rw [GameServer.findIndex, if_pos hp] at hw
      simp only [Option.some.injEq] at hw
      subst hw
      cases i with
      | zero => simp [GameServer.modifyFirst, hp]
      | succ i => simp [GameServer.modifyFirst, hp]
    | false =>
      rw [GameServer.findIndex, if_neg (by simp [hp])] at hw
      rw [Option.map_eq_some'] at hw
      obtain ⟨w', hw', rfl⟩ := hw
      cases i with
      | zero => simp [GameServer.modifyFirst, hp]
      | succ i =>
        simp only [GameServer.modifyFirst, hp, Bool.false_eq_true,
          if_false, List.get?_cons_succ, ih w' hw' i]
        by_cases hiw : i = w'
        · rw [if_pos hiw, if_pos (by omega)]
        · rw [if_neg hiw, if_neg (by omega)]

theorem toCard_higherCard (a b : PlayedCard) :
    (GameServer.higherCard a b).toCard = higherCard a.toCard b.toCard := by
  simp only [GameServer.higherCard, higherCard, GameServer.compareCards,
    compareCards, PlayedCard.toCard]
  split <;> rfl

theorem toCard_foldl_higher :
    ∀ (rest : List PlayedCard) (first : PlayedCard),
      (rest.foldl GameServer.higherCard first).toCard
        = (rest.map PlayedCard.toCard).foldl higherCard first.toCard := by
  intro rest
  induction rest with
  | nil => intro first; rfl
  | cons c cs ih =>
    intro first
    simp only [List.foldl_cons, List.map_cons, ih (GameServer.higherCard
      first c), toCard_higherCard]

theorem filter_toCard_suit (s : Suit) :
    ∀ t : List PlayedCard,
      (t.map PlayedCard.toCard).filter (fun c => c.suit == s)
        = (t.filter (fun c => some c.suit == some s)).map
            PlayedCard.toCard := by
  intro t
  induction t with
  | nil => rfl
  | cons c cs ih =>
    have hopt : (some c.suit == some s) = (c.suit == s) := rfl
    have htc : (c.toCard.suit == s) = (c.suit == s) := rfl
    cases hcs : (c.suit == s) with
    | true => simp [htc, hopt, hcs, ih]
    | false => simp [htc, hopt, hcs, ih]

theorem broadcast_filter_view (live : String → Bool) (q : String)
    (room : GameRoom) (h1 h2 : GameServer.Hands) (hq : h1 q = h2 q) :
    ∀ ps : List Player,
      ((ps.filter (fun p => live p.id)).map (fun player =>
        (player.id, GameServer.SocketResponse.GAME_STATE_UPDATE
          { room := GameServer.toPublicRoom room,
            myCards := GameServer.getPlayerCards h1 player.id,
            myId := player.id, selectedCards := [],
            canPass := player.isCurrentTurn,
            passDirection := "left" }))).filter (fun e => e.1 == q)
      = ((ps.filter (fun p => live p.id)).map (fun player =>
        (player.id, GameServer.SocketResponse.GAME_STATE_UPDATE
          { room := GameServer.toPublicRoom room,
            myCards := GameServer.getPlayerCards h2 player.id,
            myId := player.id, selectedCards := [],
            canPass := player.isCurrentTurn,
            passDirection := "left" }))).filter (fun e => e.1 == q) := by
  intro ps
  induction ps with
  | nil => rfl
  | cons p rest ih =>
    by_cases hl : live p.id = true
    · by_cases hpq : (p.id == q) = true
      · have hid : p.id = q := by simpa using hpq
        have hcards : GameServer.getPlayerCards h1 p.id
            = GameServer.getPlayerCards h2 p.id := by
          simp only [GameServer.getPlayerCards]
          rw [hid]
          exact hq
        simp [hl, hpq, hcards, ih]
      · simp [hl, hpq, ih]
    · simp [hl, ih]

/-- C8: every rejected action leaves the room state and the private
hand store untouched and sends its error (when one is sent at all; a
PLAY_CARD against a room that is not playing is dropped silently) only
to the offending connection: PLAY_CARD out of phase, out of turn, or
with a card id absent from the private hand of the requester, and
JOIN_ROOM against a missing, full, or already started room. -/
theorem claim8_rejections_unmutating (live : String → Bool)
    (room : GameRoom) (hands : GameServer.Hands)
    (sockId cardId roomId playerName : String) :
    (¬ room.gameState = GamePhase.playing →
       GameServer.playCard live (some room) hands sockId cardId
         = (some room, hands, []))
    ∧ (room.gameState = GamePhase.playing →
       ((room.players.find? (fun p => p.id == sockId)).map
           Player.isCurrentTurn).getD false = false →
       GameServer.playCard live (some room) hands sockId cardId
         = (some room, hands,
            [(sockId, GameServer.SocketResponse.ERROR "Not your turn!")]))
    ∧ (room.gameState = GamePhase.playing →
       ((room.players.find? (fun p => p.id == sockId)).map
           Player.isCurrentTurn).getD false = true →
       (hands sockId).find? (fun card => card.id == cardId) = none →
       GameServer.playCard live (some room) hands sockId cardId
         = (some room, hands,
            [(sockId, GameServer.SocketResponse.ERROR
                "Card not found in your hand")]))
    ∧ (GameServer.joinRoom live none hands roomId playerName sockId
        = (none,
           [(sockId, GameServer.SocketResponse.ERROR "Room not found")]))
    ∧ (room.players.length ≥ room.maxPlayers →
        GameServer.joinRoom live (some room) hands roomId playerName sockId
          = (some room,
             [(sockId, GameServer.SocketResponse.ERROR "Room is full")]))
    ∧ (room.players.length < room.maxPlayers →
       ¬ room.gameState = GamePhase.waiting →
        GameServer.joinRoom live (some room) hands roomId playerName sockId
          = (some room,
             [(sockId, GameServer.SocketResponse.ERROR
                 "Game already in progress")])) := by
  refine ⟨?_, ?_, ?_, rfl, ?_, ?_⟩
  · intro h
    simp only [GameServer.playCard]
    rw [if_neg h]
  · intro hg ht
    simp only [GameServer.playCard]
    rw [if_pos hg, if_neg (by simp [ht])]
  · intro hg ht hnone
    simp only [GameServer.playCard, GameServer.getPlayerCards]
    rw [if_pos hg, if_pos ht, hnone]
  · intro h
    simp only [GameServer.joinRoom]
    rw [if_pos h]
  · intro h1 h2
    simp only [GameServer.joinRoom]
    rw [if_neg (by omega), if_pos h2]

/-- C8 witness: each rejection evaluated at a concrete input: a
waiting room drops PLAY_CARD silently, an out-of-turn and an
unknown-card PLAY_CARD only message the requester, and the three
JOIN_ROOM rejections answer only the joiner, always returning the
input state unchanged. -/
theorem claim8_rejections_unmutating_witness :
    GameServer.playCard liveAll (some roomW) handsC "h0" "h9"
      = (some roomW, handsC, [])
    ∧ GameServer.playCard liveAll (some roomA) handsA "p0" "h9"
      = (some roomA, handsA,
         [("p0", GameServer.SocketResponse.ERROR "Not your turn!")])
    ∧ GameServer.playCard liveAll (some roomA) handsA "p2" "zz"
      = (some roomA, handsA,
         [("p2", GameServer.SocketResponse.ERROR
             "Card not found in your hand")])
    ∧ GameServer.joinRoom liveAll none handsA "NOPE" "Eve" "e1"
      = (none, [("e1", GameServer.SocketResponse.ERROR "Room not found")])
    ∧ GameServer.joinRoom liveAll (some roomA) handsA "ROOM01" "Eve" "e1"
      = (some roomA,
         [("e1", GameServer.SocketResponse.ERROR "Room is full")])
    ∧ GameServer.joinRoom liveAll (some roomP2) handsA "ROOM07" "Eve" "e1"
      = (some roomP2,
         [("e1", GameServer.SocketResponse.ERROR
             "Game already in progress")]) := by
  refine ⟨?_, ?_, ?_, ?_, ?_, ?_⟩
  · exact (claim8_rejections_unmutating liveAll roomW handsC "h0" "h9"
      "R" "n").1 (by decide)
  · exact (claim8_rejections_unmutating liveAll roomA handsA "p0" "h9"
      "R" "n").2.1 (by decide) (by decide)
  · exact (claim8_rejections_unmutating liveAll roomA handsA "p2" "zz"
      "R" "n").2.2.1 (by decide) (by decide) (by decide)
  · exact (claim8_rejections_unmutating liveAll roomA handsA "e1" "zz"
      "NOPE" "Eve").2.2.2.1
  · exact (claim8_rejections_unmutating liveAll roomA handsA "e1" "zz"
      "ROOM01" "Eve").2.2.2.2.1 (by decide)
  · exact (claim8_rejections_unmutating liveAll roomP2 handsA "e1" "zz"
      "ROOM07" "Eve").2.2.2.2.2 (by decide) (by decide)

/-- C9: every personalized view broadcast by broadcastGameStateUpdate
carries as myCards exactly the private hand of the receiving
connection and the public room projection; two hand stores that agree
on the hand of a given connection produce identical messages for that
connection even when the concealed hands of other players differ; and
under pairwise-disjoint hands no card of another player ever appears
in the myCards of a view. -/
theorem claim9_view_privacy (live : String → Bool) (room : GameRoom)
    (hands hands1 hands2 : GameServer.Hands) (q : String) :
    (∀ r m, (r, m) ∈ GameServer.broadcastGameStateUpdate live room hands →
       ∃ v, m = GameServer.SocketResponse.GAME_STATE_UPDATE v
         ∧ v.myCards = hands r
         ∧ v.room = GameServer.toPublicRoom room)
    ∧ (hands1 q = hands2 q →
       (GameServer.broadcastGameStateUpdate live room hands1).filter
           (fun e => e.1 == q)
         = (GameServer.broadcastGameStateUpdate live room hands2).filter
           (fun e => e.1 == q))
    ∧ ((∀ p1 p2, p1 ∈ room.players → p2 ∈ room.players → p1.id ≠ p2.id →
          ∀ c, c ∈ hands p1.id → c ∉ hands p2.id) →
       ∀ r m, (r, m) ∈ GameServer.broadcastGameStateUpdate live room hands →
       ∀ v, m = GameServer.SocketResponse.GAME_STATE_UPDATE v →
       ∀ p, p ∈ room.players → p.id ≠ r →
       ∀ c, c ∈ v.myCards → c ∉ hands p.id) := by
  refine ⟨?_, ?_, ?_⟩
  · intro r m hm
    simp only [GameServer.broadcastGameStateUpdate, List.mem_map] at hm
    obtain ⟨player, hpl, heq⟩ := hm
    rw [Prod.mk.injEq] at heq
    obtain ⟨hr, hm2⟩ := heq
    refine ⟨_, hm2.symm, ?_, rfl⟩
    simp only [GameServer.getPlayerCards]
    rw [hr]
  · intro hq
    exact broadcast_filter_view live q room hands1 hands2 hq room.players
  · intro hdisj r m hm v hv p hp hne c hc
    simp only [GameServer.broadcastGameStateUpdate, List.mem_map] at hm
    obtain ⟨player, hpl, heq⟩ := hm
    rw [Prod.mk.injEq] at heq
    obtain ⟨hr, hm2⟩ := heq
    have hmem : player ∈ room.players := List.mem_of_mem_filter hpl
    rw [← hm2] at hv
    injection hv with hvv
    have hcards : v.myCards = hands player.id := by
      rw [← hvv]
      rfl
    have hpid : player.id ≠ p.id := by
      rw [hr]
      exact fun h => hne h.symm
    have hdis := hdisj player p hmem hp hpid c
    rw [hcards] at hc
    exact hdis hc

/-- C9 witness: in scenario A9 the two hand stores agree on the p2
hand but differ on the p1 hand (one holds the secret card); the
messages addressed to p2 coincide, so the p2 view reveals nothing
about the p1 hand. -/
theorem claim9_view_privacy_witness :
    (GameServer.broadcastGameStateUpdate liveAll roomA hands9a).filter
        (fun e => e.1 == "p2")
      = (GameServer.broadcastGameStateUpdate liveAll roomA hands9b).filter
        (fun e => e.1 == "p2")
    ∧ hands9a "p1" ≠ hands9b "p1" := by
  refine ⟨(claim9_view_privacy liveAll roomA hands9a hands9a hands9b
    "p2").2.1 (by decide), by decide⟩

/-- C10: during playing, a PLAY_CARD from the player holding the turn
is accepted and applied for any card found in the private hand of the
requester, with no condition on its suit (the suit-following validator
isValidCardPlay is never consulted): the card leaves the hand, the
cardCount of the requester drops by one, and (when the trick was not
about to complete) the tagged card is appended to currentTrick. -/
theorem claim10_playCard_no_suit_enforcement (live : String → Bool)
    (room : GameRoom) (hands : GameServer.Hands) (sockId cardId : String)
    (pl : Player) (card : Card)
    (hg : room.gameState = GamePhase.playing)
    (hfind : room.players.find? (fun p => p.id == sockId) = some pl)
    (hturn : pl.isCurrentTurn = true)
    (hcard : (hands sockId).find? (fun c => c.id == cardId) = some card) :
    ∃ room',
      (GameServer.playCard live (some room) hands sockId cardId).1
        = some room'
      ∧ (GameServer.playCard live (some room) hands sockId cardId).2.1
        = GameServer.removeCardFromPlayer hands sockId cardId
      ∧ (GameServer.playCard live (some room) hands sockId cardId).2.1 sockId
        = (hands sockId).filter (fun c => ¬ c.id = cardId)
      ∧ (room.currentTrick.length ≠ 3 →
          room'.currentTrick = room.currentTrick ++ [card.played sockId])
      ∧ room'.players.map (fun p => (p.id, p.cardCount))
        = (GameServer.modifyFirst (fun p => p.id == sockId)
            (fun p => { p with cardCount := p.cardCount - 1 })
            room.players).map (fun p => (p.id, p.cardCount)) := by
  have hturn2 : ((room.players.find? (fun p => p.id == sockId)).map
      Player.isCurrentTurn).getD false = true := by
    rw [hfind]
    simpa using hturn
  simp only [GameServer.playCard, GameServer.getPlayerCards]
  rw [if_pos hg, if_pos hturn2, hcard]
  dsimp only
  by_cases hlen : (GameServer.applyPlay room sockId card).currentTrick.length
      = 4
  · rw [if_pos hlen]
    have hlen3 : room.currentTrick.length = 3 := by
      rw [applyPlay_trick, List.length_append] at hlen
      simpa using hlen
    cases hct : GameServer.completeTrick
        (GameServer.applyPlay room sockId card) with
    | error e =>
      refine ⟨_, rfl, rfl, removeCard_at_self hands sockId cardId,
        fun h3 => absurd hlen3 h3, ?_⟩
      rw [applyPlay_players]
    | ok room3 =>
      refine ⟨_, rfl, rfl, removeCard_at_self hands sockId cardId,
        fun h3 => absurd hlen3 h3, ?_⟩
      rw [(playCardFinishCheck_players room3).1,
        map_pair_completeTrick _ _ hct, applyPlay_players]
  · rw [if_neg hlen]
    refine ⟨_, rfl, rfl, removeCard_at_self hands sockId cardId,
      fun _ => ?_, ?_⟩
    · rw [(playCardFinishCheck_players _).2, advanceTurn_trick,
        applyPlay_trick]
    · rw [(playCardFinishCheck_players _).1, advanceTurn_map_pair,
        applyPlay_players]

/-- C10 witness: in scenario F the requester r1 holds the queen of
hearts while hearts is the lead suit, so isValidCardPlay rejects the
five of spades; the controller accepts it anyway: the spade leaves the
hand and lands, tagged, on the trick. -/
theorem claim10_playCard_no_suit_enforcement_witness :
    isValidCardPlay card5s (roomF.currentTrick.map PlayedCard.toCard)
        (handsF "r1") (some Suit.hearts) = false
    ∧ ∃ room',
      (GameServer.playCard liveAll (some roomF) handsF "r1" "s5").1
        = some room'
      ∧ (GameServer.playCard liveAll (some roomF) handsF "r1" "s5").2.1 "r1"
        = (handsF "r1").filter (fun c => ¬ c.id = "s5")
      ∧ room'.currentTrick = roomF.currentTrick ++ [card5s.played "r1"] := by
  refine ⟨by decide, ?_⟩
  obtain ⟨room', h1, h2, h3, h4, h5⟩ :=
    claim10_playCard_no_suit_enforcement liveAll roomF handsF "r1" "s5"
      (mkPlayer "r1" 13 0 true) card5s rfl (by decide) (by decide)
      (by decide)
  exact ⟨room', h1, h3, h4 (by decide)⟩

/-- C6: when the fourth card completes a non-bent trick, completeTrick
succeeds and the player who played the winning card (the card that
findTrickWinner selects on the same trick) collects exactly 4 cards,
becomes currentPlayerIndex and trickStartPlayer, every seat gets its
isCurrentTurn flag set exactly when it is the winning seat, the trick
cards are archived, and currentTrick and trickLeadSuit are cleared. -/
theorem claim6_completeTrick_winner (room : GameRoom) (s : Suit)
    (first : PlayedCard) (rest : List PlayedCard) (wIdx : Nat)
    (hlead : room.trickLeadSuit = some s)
    (hlen4 : room.currentTrick.length = 4)
    (hfil : room.currentTrick.filter (fun c => some c.suit == some s)
      = first :: rest)
    (hvoid : sameRank (room.currentTrick.map PlayedCard.toCard) = false)
    (hidx : GameServer.findIndex
        (fun p => p.id == (rest.foldl GameServer.higherCard first).playedBy)
        room.players = some wIdx) :
    ∃ room', GameServer.completeTrick room = Except.ok room'
      ∧ room'.currentPlayerIndex = wIdx
      ∧ room'.trickStartPlayer = wIdx
      ∧ room'.currentTrick = []
      ∧ room'.trickLeadSuit = none
      ∧ room'.centerCards = room.centerCards ++ room.currentTrick
      ∧ (room'.players.get? wIdx).map Player.collectedCards
        = (room.players.get? wIdx).map (fun p => p.collectedCards + 4)
      ∧ (∀ i, i ≠ wIdx →
          (room'.players.get? i).map Player.collectedCards
          = (room.players.get? i).map Player.collectedCards)
      ∧ (∀ i, (room'.players.get? i).map Player.isCurrentTurn
          = (room.players.get? i).map (fun _ => (i == wIdx : Bool)))
      ∧ findTrickWinner (room.currentTrick.map PlayedCard.toCard) (some s)
        = some (rest.foldl GameServer.higherCard first).toCard := by
  have hfil2 : room.currentTrick.filter
      (fun card => some card.suit == room.trickLeadSuit)
      = first :: rest := by
    rw [hlead]
    exact hfil
  simp only [GameServer.completeTrick]
  rw [hfil2]
  dsimp only
  rw [hidx]
  dsimp only
  refine ⟨_, rfl, rfl, rfl, rfl, rfl, rfl, ?_, ?_, ?_, ?_⟩
  · rw [setTurnFlags_get?, modifyFirst_get? _ _ room.players wIdx hidx wIdx,
      if_pos rfl]
    cases hq : room.players.get? wIdx with
    | none => simp
    | some p0 => simp [hlen4]
  · intro i hi
    rw [setTurnFlags_get?, modifyFirst_get? _ _ room.players wIdx hidx i,
      if_neg hi]
    cases room.players.get? i with
    | none => simp
    | some p0 => simp
  · intro i
    rw [setTurnFlags_get?, modifyFirst_get? _ _ room.players wIdx hidx i]
    by_cases hi : i = wIdx
    · rw [if_pos hi]
      cases room.players.get? i with
      | none => simp
      | some p0 => simp [hi]
    · rw [if_neg hi]
      cases room.players.get? i with
      | none => simp
      | some p0 => simp
  · have h0 : ¬ (room.currentTrick.map PlayedCard.toCard).length = 0 := by
      simp [hlen4]
    have h4m : (room.currentTrick.map PlayedCard.toCard).length = 4 := by
      simp [hlen4]
    have hfil3 : (room.currentTrick.map PlayedCard.toCard).filter
        (fun c => c.suit == s)
        = first.toCard :: rest.map PlayedCard.toCard := by
      rw [filter_toCard_suit, hfil]
      rfl
    simp only [findTrickWinner]
    rw [if_neg h0, if_neg (by simp [hvoid])]
    rw [hfil3]
    dsimp only
    rw [toCard_foldl_higher]

/-- C6 witness: the spec example trick sits complete in scenario G with
hearts led; completeTrick credits 4 cards to seat 0 (which played the
three of hearts, the findTrickWinner card) and hands seat 0 the lead. -/
theorem claim6_completeTrick_winner_witness :
    ∃ room', GameServer.completeTrick roomG = Except.ok room'
      ∧ room'.currentPlayerIndex = 0
      ∧ room'.trickStartPlayer = 0
      ∧ (room'.players.get? 0).map Player.collectedCards = some 4
      ∧ findTrickWinner (roomG.currentTrick.map PlayedCard.toCard)
          (some Suit.hearts) = some card3h := by
  obtain ⟨room', h1, h2, h3, h4, h5, h6, h7, h8, h9, h10⟩ :=
    claim6_completeTrick_winner roomG Suit.hearts (card3h.played "g0")
      [card2h.played "g2"] 0 rfl (by decide) (by decide) (by decide)
      (by decide)
  refine ⟨room', h1, h2, h3, ?_, ?_⟩
  · rw [h7]
    decide
  · rw [h10]
    decide

/-- C7: getNextPlayerIndex advances clockwise from currentIndex + 1,
skipping finished players (the first non-finished seat in the cyclic
scan is returned); when every seat other than the current one is
finished it returns the current index unchanged; and with exactly one
unfinished seat among four players it returns that seat from every
starting index. -/
theorem claim7_getNextPlayerIndex (room : GameRoom) (c : Nat)
    (hN : 0 < room.players.length) (hc : c < room.players.length) :
    (∀ k < room.players.length,
       (∀ j < k, isFinishedAt room.players
           ((c + 1 + j) % room.players.length) = true) →
       isFinishedAt room.players
           ((c + 1 + k) % room.players.length) = false →
       getNextPlayerIndex room c = (c + 1 + k) % room.players.length)
    ∧ ((∀ i < room.players.length, i ≠ c →
          isFinishedAt room.players i = true) →
       getNextPlayerIndex room c = c)
    ∧ (room.players.length = 4 → ∀ u < 4,
       (∀ i < 4, (isFinishedAt room.players i = false ↔ i = u)) →
       getNextPlayerIndex room c = u) := by
  have hstart : (c + 1) % room.players.length < room.players.length :=
    Nat.mod_lt _ hN
  have part1 : ∀ k < room.players.length,
      (∀ j < k, isFinishedAt room.players
          ((c + 1 + j) % room.players.length) = true) →
      isFinishedAt room.players
          ((c + 1 + k) % room.players.length) = false →
      getNextPlayerIndex room c = (c + 1 + k) % room.players.length := by
    intro k hk hbef hkf
    have hb2 : ∀ j < k, isFinishedAt room.players
        (((c + 1) % room.players.length + j) % room.players.length)
        = true := by
      intro j hj
      rw [Nat.mod_add_mod]
      exact hbef j hj
    have hf2 : isFinishedAt room.players
        (((c + 1) % room.players.length + k) % room.players.length)
        = false := by
      rw [Nat.mod_add_mod]
      exact hkf
    show (if (getNextLoopAux room.players room.players.length
        ((c + 1) % room.players.length) 0).2 ≥ room.players.length
      then c
      else (getNextLoopAux room.players room.players.length
        ((c + 1) % room.players.length) 0).1)
      = (c + 1 + k) % room.players.length
    rw [getNextLoopAux_first_unfinished room.players room.players.length
      ((c + 1) % room.players.length) 0 k hstart (by omega) hk hb2 hf2]
    dsimp only
    rw [if_neg (by omega : ¬ 0 + k ≥ room.players.length)]
    rw [Nat.mod_add_mod]
  have part2 : (∀ i < room.players.length, i ≠ c →
      isFinishedAt room.players i = true) →
      getNextPlayerIndex room c = c := by
    intro hall
    cases hfc : isFinishedAt room.players c with
    | false =>
      have hk : room.players.length - 1 < room.players.length := by omega
      have hbef : ∀ j < room.players.length - 1,
          isFinishedAt room.players
            ((c + 1 + j) % room.players.length) = true := by
        intro j hj
        have hidx : (c + 1 + j) % room.players.length
            < room.players.length := Nat.mod_lt _ hN
        have hne := mod_shift_ne c j room.players.length hc (by omega)
        exact hall _ hidx hne
      have hlast : isFinishedAt room.players
          ((c + 1 + (room.players.length - 1)) % room.players.length)
          = false := by
        have harg : c + 1 + (room.players.length - 1)
            = c + room.players.length := by omega
        rw [harg, Nat.add_mod_right, Nat.mod_eq_of_lt hc]
        exact hfc
      have hmain := part1 (room.players.length - 1) hk hbef hlast
      rw [hmain]
      have harg : c + 1 + (room.players.length - 1)
          = c + room.players.length := by omega
      rw [harg, Nat.add_mod_right, Nat.mod_eq_of_lt hc]
    | true =>
      have hallk : ∀ k < room.players.length, isFinishedAt room.players
          (((c + 1) % room.players.length + k) % room.players.length)
          = true := by
        intro k _
        have hidx : ((c + 1) % room.players.length + k)
            % room.players.length < room.players.length := Nat.mod_lt _ hN
        by_cases hne : ((c + 1) % room.players.length + k)
            % room.players.length = c
        · rw [hne]
          exact hfc
        · exact hall _ hidx hne
      show (if (getNextLoopAux room.players room.players.length
          ((c + 1) % room.players.length) 0).2 ≥ room.players.length
        then c
        else (getNextLoopAux room.players room.players.length
          ((c + 1) % room.players.length) 0).1) = c
      rw [getNextLoopAux_all_finished room.players room.players.length
        ((c + 1) % room.players.length) 0 hstart (by omega) hallk]
      dsimp only
      rw [if_pos (by omega : 0 + room.players.length ≥ room.players.length)]
  have part3 : room.players.length = 4 → ∀ u < 4,
      (∀ i < 4, (isFinishedAt room.players i = false ↔ i = u)) →
      getNextPlayerIndex room c = u := by
    intro hlen u hu hiff
    have hc4 : c < 4 := by omega
    have hk4 : (u + 4 - (c + 1) % 4) % 4 < 4 := Nat.mod_lt _ (by omega)
    have hku : (c + 1 + (u + 4 - (c + 1) % 4) % 4) % 4 = u := by omega
    have hbef : ∀ j < (u + 4 - (c + 1) % 4) % 4,
        isFinishedAt room.players ((c + 1 + j) % 4) = true := by
      intro j hj
      have hj4 : (c + 1 + j) % 4 < 4 := by omega
      have hne : (c + 1 + j) % 4 ≠ u := by omega
      cases hfin : isFinishedAt room.players ((c + 1 + j) % 4) with
      | true => rfl
      | false => exact absurd ((hiff _ hj4).mp hfin) hne
    have hkf : isFinishedAt room.players
        ((c + 1 + (u + 4 - (c + 1) % 4) % 4) % 4) = false := by
      rw [hku]
      exact (hiff u hu).mpr rfl
    rw [hlen] at part1
    have hmain := part1 ((u + 4 - (c + 1) % 4) % 4) hk4 hbef hkf
    rw [hmain, hku]
  exact ⟨part1, part2, part3⟩

/-- C7 witness: in scenario E three of four players are finished; from
starting index 1 and from starting index 0 alike, getNextPlayerIndex
returns the unique unfinished seat 3. -/
theorem claim7_getNextPlayerIndex_witness :
    getNextPlayerIndex roomE 1 = 3 ∧ getNextPlayerIndex roomE 0 = 3 := by
  have h1 := (claim7_getNextPlayerIndex roomE 1 (by decide)
    (by decide)).2.2 (by decide) 3 (by decide) (by decide)
  have h0 := (claim7_getNextPlayerIndex roomE 0 (by decide)
    (by decide)).2.2 (by decide) 3 (by decide) (by decide)
  exact ⟨h1, h0⟩

end DonkeyKing
